import Mathlib

/-!
Verification of the pipeline-run list-view layer of konflux-ui.

The development shallowly embeds the three page-level list views
(CommitsPipelineRunTab, PipelineRunsListView, SnapshotPipelineRunsList)
together with the pieces of shared infrastructure their observable
behaviour depends on.  Pure functions of the source are translated into
Lean functions; the per-render output of each view component is captured
as a record of the values the component passes to its collaborators
(the rendered outcome, the collection handed to vulnerability enrichment,
the infinite-loader adapter fields, and the argument given to the HTTP
error mapper).

Collaborators whose code is not part of the provided sources
(useFilteredData, the shared Table renderer, HttpError.fromCode,
pipelineRunStatus) are modelled from the specification; each such
definition carries a doc comment saying so.
-/

/-- A pipeline-run record, restricted to the fields this layer reads:
the metadata name, the source-commit attribute backing the commit search,
the pipeline-type label (metadata.labels[PipelineRunLabel.PIPELINE_TYPE],
none when the label is absent), the start time (status.startTime, none
when status or startTime is absent), and the status label derived by the
external pipelineRunStatus utility. -/
structure PLR where
  name : String
  commitValue : String
  typeLabel : Option String
  startTime : Option String
  derivedStatus : String
deriving DecidableEq, Repr

/-- Modelled from the spec: pipelineRunStatus derives a single status label
from a pipeline-run record and is treated as an opaque, deterministic
function of the record (spec 4.16).  The derived label is modelled as a
record field. -/
def pipelineRunStatus (p : PLR) : String :=
  p.derivedStatus

/-- Checks whether the second character list is a prefix of the first. -/
def listStartsWith : List Char → List Char → Bool
  | _, [] => true
  | [], _ :: _ => false
  | c :: cs, d :: ds => c == d && listStartsWith cs ds

/-- Checks whether the second character list occurs contiguously inside
the first. -/
def listHasSubstring : List Char → List Char → Bool
  | [], pat => listStartsWith [] pat
  | c :: rest, pat => listStartsWith (c :: rest) pat || listHasSubstring rest pat

/-- Case-insensitive substring containment, used by the search filter of
the generic filter system (spec 4.7). -/
def strContainsCI (s pat : String) : Bool :=
  listHasSubstring s.toLower.data pat.toLower.data

/-- One entry of the option list produced by a multiSelect getOptions
function: value, display label and count. -/
structure FilterOption where
  value : String
  label : String
  count : Nat
deriving DecidableEq, Repr

/-- Increment the count stored under a key of an insertion-ordered count
map, appending the key with count 1 when absent.  This models the JS
Map update typeMap.set(type, (typeMap.get(type) or 0) + 1): an existing
key keeps its position, a new key is appended. -/
def bumpCount : List (String × Nat) → String → List (String × Nat)
  | [], k => [(k, 1)]
  | (k', c) :: rest, k =>
    if k' = k then (k', c + 1) :: rest else (k', c) :: bumpCount rest k

/-- One step of the forEach loop of the type facet getOptions: records
whose pipeline-type label is absent or empty are skipped (the JS
truthiness test if (type)), every other record bumps the count of its
label value. -/
def typeCountStep (m : List (String × Nat)) (plr : PLR) : List (String × Nat) :=
  match plr.typeLabel with
  | some t => if t = "" then m else bumpCount m t
  | none => m

/-- The insertion-ordered count map built by the type facet getOptions. -/
def typeCountMap (data : List PLR) : List (String × Nat) :=
  data.foldl typeCountStep []

/-- Capitalisation of the display label in the commit-tab and
application-view type getOptions:
type.charAt(0).toUpperCase() + type.slice(1). -/
def capitalizeFirst (t : String) : String :=
  match t.data with
  | [] => ""
  | c :: cs => String.mk (c.toUpper :: cs)

/-- getOptions of the type facet as declared in CommitsPipelineRunTab and
PipelineRunsListView: one option per distinct truthy label value, in
first-seen order, with the display label capitalised. -/
def typeGetOptions (data : List PLR) : List FilterOption :=
  (typeCountMap data).map (fun e => ⟨e.1, capitalizeFirst e.1, e.2⟩)

/-- getOptions of the type facet as declared in SnapshotPipelineRunsList:
identical to typeGetOptions except the display label is the raw value. -/
def snapshotTypeGetOptions (data : List PLR) : List FilterOption :=
  (typeCountMap data).map (fun e => ⟨e.1, e.1, e.2⟩)

/-- The number of records of the dataset carrying the given value as
their pipeline-type label. -/
def typeLabelCount (data : List PLR) (v : String) : Nat :=
  (data.filter (fun p => p.typeLabel == some v)).length

/-- First-match lookup of a count in an insertion-ordered count map,
zero when the key is absent. -/
def lookupCount : List (String × Nat) → String → Nat
  | [], _ => 0
  | (k', c) :: rest, k => if k' = k then c else lookupCount rest k

/-- The sign returned by String.prototype.localeCompare, modelled as
lexicographic comparison of the two strings (ISO-8601 timestamps compare
correctly this way). -/
def jsLocaleCompare (s t : String) : Int :=
  if s < t then -1 else if t < s then 1 else 0

/-- The string JS passes to localeCompare for an optional value: the
value itself when present, otherwise ToString(undefined), which is the
literal string "undefined". -/
def startTimeToStr : Option String → String
  | some s => s
  | none => "undefined"

/-- The sort comparator of PipelineRunsListView:
(a, b) => b.status?.startTime?.localeCompare(a.status?.startTime).
When b lacks status.startTime the optional chain makes the whole
expression undefined (none); otherwise it is the localeCompare sign,
where an absent a.status.startTime is coerced to "undefined". -/
def jsComparator (a b : PLR) : Option Int :=
  match b.startTime with
  | some sb => some (jsLocaleCompare sb (startTimeToStr a.startTime))
  | none => none

/-- The boolean order the sort places elements in: a precedes b when the
comparator value is at most zero.  An undefined comparator result is
treated as zero, following the JS sort rule that a NaN comparison result
is replaced by +0. -/
def plrSortLe (a b : PLR) : Bool :=
  decide ((jsComparator a b).getD 0 ≤ 0)

/-- Insert an element into a list, placing it before the first element it
compares at-most-zero against.  Together with jsSortBy this models
Array.prototype.sort with the comparator, as a comparison sort. -/
def jsSortInsert {α : Type} (le : α → α → Bool) (x : α) : List α → List α
  | [] => [x]
  | y :: ys => if le x y then x :: y :: ys else y :: jsSortInsert le x ys

/-- Comparison sort modelling Array.prototype.sort with a comparator. -/
def jsSortBy {α : Type} (le : α → α → Bool) : List α → List α
  | [] => []
  | x :: xs => jsSortInsert le x (jsSortBy le xs)

/-- sortedPipelineRuns of PipelineRunsListView: an absent collection
yields the empty list, otherwise a copy of the collection sorted with
the jsComparator. -/
def sortedPipelineRuns (runs : Option (List PLR)) : List PLR :=
  match runs with
  | none => []
  | some l => jsSortBy plrSortLe l

/-- The search attribute currently selected in the generic search filter:
one of name or commit. -/
inductive SearchAttr where
  | name
  | commit
deriving DecidableEq, Repr

/-- The URL query state read by the generic filter system: one parameter
per search attribute key (name, commit), the selected attribute, and the
selected value lists of the status and type multiSelect parameters. -/
structure FilterQueryState where
  nameParam : String
  commitParam : String
  activeAttribute : SearchAttr
  statusParam : List String
  typeParam : List String
deriving DecidableEq, Repr

/-- The filterFn of the status multiSelect config (identical in all three
views): pass-through for an empty selection, otherwise membership of the
derived status among the selected values. -/
def statusFilterFn (item : PLR) (value : List String) : Bool :=
  if value.isEmpty then true else value.contains (pipelineRunStatus item)

/-- The filterFn of the type multiSelect config (identical in all three
views): pass-through for an empty selection, otherwise membership of the
pipeline-type label among the selected values; a record without the
label matches nothing (undefined is never an element of a string list). -/
def typeFilterFn (item : PLR) (value : List String) : Bool :=
  if value.isEmpty then true
  else
    match item.typeLabel with
    | some t => value.contains t
    | none => false

/-- Modelled from the spec: the search predicate of useFilteredData
(spec 4.7) - a record passes when no search term is present for any
configured attribute, or when the term for the currently selected
attribute is a case-insensitive substring of that attribute backing
field on the record. -/
def searchMatches (q : FilterQueryState) (p : PLR) : Bool :=
  if q.nameParam = "" ∧ q.commitParam = "" then true
  else
    match q.activeAttribute with
    | SearchAttr.name => strContainsCI p.name q.nameParam
    | SearchAttr.commit => strContainsCI p.commitValue q.commitParam

/-- The output of useFilteredData: the filtered collection and the
is-any-filter-active flag. -/
structure FilteredResult where
  filteredData : List PLR
  isFiltered : Bool
deriving DecidableEq, Repr

/-- Modelled from the spec: useFilteredData (spec 4.7), whose source is
not among the provided files.  A record survives only if it satisfies
every configured filter (search, status, type - logical AND); isFiltered
is true iff at least one configured parameter currently holds a
non-empty value.  The multiSelect predicates are the filterFn values
declared at the call sites (statusFilterFn, typeFilterFn). -/
def useFilteredData (input : List PLR) (q : FilterQueryState) : FilteredResult :=
  { filteredData :=
      input.filter (fun p =>
        searchMatches q p && statusFilterFn p q.statusParam && typeFilterFn p q.typeParam)
    isFiltered :=
      decide (q.nameParam ≠ "") || decide (q.commitParam ≠ "") ||
        !q.statusParam.isEmpty || !q.typeParam.isEmpty }

/-- Which of the two empty-state components is shown. -/
inductive EmptyStateKind where
  | noPipelineRuns
  | filteredEmpty
deriving DecidableEq, Repr

/-- What the shared Table renders in its body region. -/
inductive TableBody where
  | loadingIndicator
  | rows (data : List PLR)
  | emptyState (k : EmptyStateKind)
deriving DecidableEq, Repr

/-- The full-view outcome of one render of a list view. -/
inductive ViewOutcome where
  | errorState (title body : String)
  | loadingSpinner
  | emptyState (k : EmptyStateKind)
  | tableView (body : TableBody)
deriving DecidableEq, Repr

/-- Modelled from the spec: the shared Table renderer (spec 4.12), whose
source is not among the provided files.  A false loaded flag shows a
loading indicator in place of rows; with data present the rows render;
with no data at all (unfilteredData empty) the NoDataEmptyMsg renders,
otherwise the EmptyMsg chosen by the caller renders. -/
def tableBody (loaded : Bool) (data unfilteredData : List PLR)
    (emptyMsg noDataEmptyMsg : EmptyStateKind) : TableBody :=
  if !loaded then TableBody.loadingIndicator
  else if !data.isEmpty then TableBody.rows data
  else if unfilteredData.isEmpty then TableBody.emptyState noDataEmptyMsg
  else TableBody.emptyState emptyMsg

/-- The error value a failed fetch reports: it may or may not carry a
numeric code property. -/
structure ErrorValue where
  code : Option Int
deriving DecidableEq, Repr

/-- The argument expression of the HttpError.fromCode call in
CommitsPipelineRunTab and PipelineRunsListView:
error ? (error as code).code : 404.  A present (truthy) error yields its
own code property - which is undefined (none) when the error carries no
code - and only an absent error would yield 404. -/
def mapperCodeArg (error : Option ErrorValue) : Option Int :=
  match error with
  | some e => e.code
  | none => some 404

/-- The hasNextPage / isFetchingNextPage bundle handed to
SnapshotPipelineRunsList. -/
structure NextPageProps where
  hasNextPage : Bool
  isFetchingNextPage : Bool
deriving DecidableEq, Repr

/-- The inputs of one render of CommitsPipelineRunTab: the values
returned by usePipelineRunsForCommit, whether getNextPage is defined,
and the URL query state. -/
structure CommitTabState where
  pipelineRuns : Option (List PLR)
  loaded : Bool
  error : Option ErrorValue
  getNextPageDefined : Bool
  isFetchingNextPage : Bool
  hasNextPage : Bool
  query : FilterQueryState

/-- The observable per-render output of CommitsPipelineRunTab. -/
structure CommitTabRender where
  filteredData : List PLR
  isFiltered : Bool
  enrichmentInput : List PLR
  mapperInput : Option (Option Int)
  outcome : ViewOutcome
  rowCount : Nat
  isRowLoaded : Nat → Bool
  loadMoreInvokes : Bool

/-- CommitsPipelineRunTab, embedded as a function from its per-render
inputs (and the external HttpError.fromCode message table) to its
observable output.  It filters the fetched collection with the generic
filter system, enriches the filtered set when any filter is active and
the full fetched set otherwise, renders the error state on a fetch
error, the no-runs empty state when loaded with zero total results, and
otherwise the table with the infinite-loading adapter. -/
def commitsPipelineRunTab (fromCode : Option Int → String) (s : CommitTabState) :
    CommitTabRender :=
  let pipelineRuns := s.pipelineRuns.getD []
  let fr := useFilteredData pipelineRuns s.query
  { filteredData := fr.filteredData
    isFiltered := fr.isFiltered
    enrichmentInput := if fr.isFiltered then fr.filteredData else pipelineRuns
    mapperInput :=
      match s.error with
      | some _ => some (mapperCodeArg s.error)
      | none => none
    outcome :=
      match s.error with
      | some _ =>
        let msg := fromCode (mapperCodeArg s.error)
        ViewOutcome.errorState "Unable to load pipeline runs"
          (if msg.length > 0 then msg else "Something went wrong")
      | none =>
        if s.loaded && pipelineRuns.isEmpty then
          ViewOutcome.emptyState EmptyStateKind.noPipelineRuns
        else
          ViewOutcome.tableView
            (tableBody (s.isFetchingNextPage || s.loaded) fr.filteredData pipelineRuns
              (if fr.isFiltered then EmptyStateKind.filteredEmpty
               else EmptyStateKind.noPipelineRuns)
              EmptyStateKind.noPipelineRuns)
    rowCount := if s.hasNextPage then fr.filteredData.length + 1 else fr.filteredData.length
    isRowLoaded := fun i => (fr.filteredData.get? i).isSome
    loadMoreInvokes := s.hasNextPage && !s.isFetchingNextPage && s.getNextPageDefined }

/-- The inputs of one render of PipelineRunsListView: the values
returned by usePipelineRuns, whether getNextPage is defined, the
optional caller-supplied predicate, and the URL query state (whose name
parameter is also what the view reads via searchParams.get of name). -/
structure AppViewState where
  pipelineRuns : Option (List PLR)
  loaded : Bool
  error : Option ErrorValue
  getNextPageDefined : Bool
  isFetchingNextPage : Bool
  hasNextPage : Bool
  customFilter : Option (PLR → Bool)
  query : FilterQueryState

/-- The observable per-render output of PipelineRunsListView. -/
structure AppViewRender where
  sorted : List PLR
  baseData : List PLR
  filteredData : List PLR
  isFiltered : Bool
  enrichmentInput : List PLR
  mapperInput : Option (Option Int)
  outcome : ViewOutcome
  rowCount : Nat
  isRowLoaded : Nat → Bool
  loadMoreInvokes : Bool

/-- PipelineRunsListView, embedded as a function from its per-render
inputs to its observable output.  It sorts the fetched collection by
status.startTime descending, applies the optional customFilter, then the
generic filter system; vulnerability enrichment receives the filtered
set when the URL name parameter is non-empty and the full sorted set
otherwise; a fetch error renders the error state, else the table. -/
def pipelineRunsListView (fromCode : Option Int → String) (s : AppViewState) :
    AppViewRender :=
  let sorted := sortedPipelineRuns s.pipelineRuns
  let base :=
    match s.customFilter with
    | some f => sorted.filter f
    | none => sorted
  let fr := useFilteredData base s.query
  { sorted := sorted
    baseData := base
    filteredData := fr.filteredData
    isFiltered := fr.isFiltered
    enrichmentInput := if s.query.nameParam ≠ "" then fr.filteredData else sorted
    mapperInput :=
      match s.error with
      | some _ => some (mapperCodeArg s.error)
      | none => none
    outcome :=
      match s.error with
      | some _ =>
        let msg := fromCode (mapperCodeArg s.error)
        ViewOutcome.errorState "Unable to load pipeline runs"
          (if msg.length > 0 then msg else "Something went wrong")
      | none =>
        ViewOutcome.tableView
          (tableBody (s.isFetchingNextPage || s.loaded) fr.filteredData sorted
            (if fr.isFiltered then EmptyStateKind.filteredEmpty
             else EmptyStateKind.noPipelineRuns)
            EmptyStateKind.noPipelineRuns)
    rowCount := if s.hasNextPage then fr.filteredData.length + 1 else fr.filteredData.length
    isRowLoaded := fun i => (fr.filteredData.get? i).isSome
    loadMoreInvokes := s.hasNextPage && !s.isFetchingNextPage && s.getNextPageDefined }

/-- The inputs of one render of SnapshotPipelineRunsList: its props (the
already-fetched collection, the loaded flag, the next-page controls, the
optional customFilter) and the URL query state. -/
structure SnapshotState where
  snapshotPipelineRuns : List PLR
  loaded : Bool
  getNextPageDefined : Bool
  nextPageProps : NextPageProps
  customFilter : Option (PLR → Bool)
  query : FilterQueryState

/-- The observable per-render output of SnapshotPipelineRunsList. -/
structure SnapshotRender where
  baseData : List PLR
  filteredData : List PLR
  isFiltered : Bool
  enrichmentInput : List PLR
  outcome : ViewOutcome
  rowCount : Nat
  isRowLoaded : Nat → Bool
  loadMoreInvokes : Bool

/-- SnapshotPipelineRunsList, embedded as a function from its per-render
inputs to its observable output.  It applies the optional customFilter
to the input collection, then the generic filter system; vulnerability
enrichment receives the filtered set when any filter is active and the
raw input collection otherwise; it renders a spinner while not loaded,
the no-runs empty state when the raw input is empty, and otherwise the
table (whose loaded flag is literally true). -/
def snapshotPipelineRunsList (s : SnapshotState) : SnapshotRender :=
  let base :=
    match s.customFilter with
    | some f => s.snapshotPipelineRuns.filter f
    | none => s.snapshotPipelineRuns
  let fr := useFilteredData base s.query
  { baseData := base
    filteredData := fr.filteredData
    isFiltered := fr.isFiltered
    enrichmentInput := if fr.isFiltered then fr.filteredData else s.snapshotPipelineRuns
    outcome :=
      if !s.loaded then ViewOutcome.loadingSpinner
      else if s.snapshotPipelineRuns.isEmpty then
        ViewOutcome.emptyState EmptyStateKind.noPipelineRuns
      else
        ViewOutcome.tableView
          (tableBody true fr.filteredData s.snapshotPipelineRuns
            (if fr.isFiltered then EmptyStateKind.filteredEmpty
             else EmptyStateKind.noPipelineRuns)
            EmptyStateKind.noPipelineRuns)
    rowCount :=
      if s.nextPageProps.hasNextPage then fr.filteredData.length + 1
      else fr.filteredData.length
    isRowLoaded := fun i => (fr.filteredData.get? i).isSome
    loadMoreInvokes :=
      s.nextPageProps.hasNextPage && !s.nextPageProps.isFetchingNextPage &&
        s.getNextPageDefined }

/-- A sample pipeline-run record used by concrete witnesses. -/
def samplePLR : PLR :=
  ⟨"run-1", "abc123", some "build", some "2024-01-01T00:00:00Z", "Succeeded"⟩

/-- A query state with no filter parameter set. -/
def emptyQuery : FilterQueryState :=
  ⟨"", "", SearchAttr.name, [], []⟩

/-- A sample commit-tab input state used by concrete witnesses: one
fetched record, loaded, no error, next page available, not currently
fetching. -/
def sampleCommitState : CommitTabState :=
  ⟨some [samplePLR], true, none, true, false, true, emptyQuery⟩

/-- A sample application-view input state used by concrete witnesses. -/
def sampleAppState : AppViewState :=
  ⟨some [samplePLR], true, none, true, false, true, none, emptyQuery⟩

/-- A sample snapshot-list input state used by concrete witnesses. -/
def sampleSnapshotState : SnapshotState :=
  ⟨[samplePLR], true, true, ⟨true, false⟩, none, emptyQuery⟩

theorem get?_isSome_eq_decide {α : Type} (l : List α) (i : Nat) :
    (l.get? i).isSome = decide (i < l.length) := by
  induction l generalizing i with
  | nil => simp [List.get?]
  | cons x xs ih =>
    cases i with
    | zero => simp [List.get?]
    | succ j => simpa [List.get?, Nat.succ_lt_succ_iff] using ih j

/-- C1: in each of the three list views, the infinite-loading adapter
reports rowCount equal to the filtered length plus one when hasNextPage
is true and exactly the filtered length when it is false, and
isRowLoaded i is true iff i is a valid index into the filtered
collection. -/
theorem c1_infinite_loader_adapter (fromCode : Option Int → String)
    (sc : CommitTabState) (sa : AppViewState) (ss : SnapshotState) (i : Nat) :
    ((commitsPipelineRunTab fromCode sc).rowCount =
        (if sc.hasNextPage then (commitsPipelineRunTab fromCode sc).filteredData.length + 1
         else (commitsPipelineRunTab fromCode sc).filteredData.length) ∧
      (commitsPipelineRunTab fromCode sc).isRowLoaded i =
        decide (i < (commitsPipelineRunTab fromCode sc).filteredData.length)) ∧
    ((pipelineRunsListView fromCode sa).rowCount =
        (if sa.hasNextPage then (pipelineRunsListView fromCode sa).filteredData.length + 1
         else (pipelineRunsListView fromCode sa).filteredData.length) ∧
      (pipelineRunsListView fromCode sa).isRowLoaded i =
        decide (i < (pipelineRunsListView fromCode sa).filteredData.length)) ∧
    ((snapshotPipelineRunsList ss).rowCount =
        (if ss.nextPageProps.hasNextPage then (snapshotPipelineRunsList ss).filteredData.length + 1
         else (snapshotPipelineRunsList ss).filteredData.length) ∧
      (snapshotPipelineRunsList ss).isRowLoaded i =
        decide (i < (snapshotPipelineRunsList ss).filteredData.length)) :=
  ⟨⟨rfl, get?_isSome_eq_decide _ i⟩, ⟨rfl, get?_isSome_eq_decide _ i⟩,
    ⟨rfl, get?_isSome_eq_decide _ i⟩⟩

/-- C2: in each of the three list views, loadMoreRows invokes the
next-page fetch trigger only when hasNextPage is true and
isFetchingNextPage is false; with any other combination of the two
flags the trigger is not invoked. -/
theorem c2_load_more_guard (fromCode : Option Int → String)
    (sc : CommitTabState) (sa : AppViewState) (ss : SnapshotState) :
    ((commitsPipelineRunTab fromCode sc).loadMoreInvokes = true →
      sc.hasNextPage = true ∧ sc.isFetchingNextPage = false) ∧
    ((pipelineRunsListView fromCode sa).loadMoreInvokes = true →
      sa.hasNextPage = true ∧ sa.isFetchingNextPage = false) ∧
    ((snapshotPipelineRunsList ss).loadMoreInvokes = true →
      ss.nextPageProps.hasNextPage = true ∧ ss.nextPageProps.isFetchingNextPage = false) := by
  refine ⟨fun h => ?_, fun h => ?_, fun h => ?_⟩
  · have h' : (sc.hasNextPage && !sc.isFetchingNextPage && sc.getNextPageDefined) = true := h
    simp only [Bool.and_eq_true, Bool.not_eq_true'] at h'
    exact ⟨h'.1.1, h'.1.2⟩
  · have h' : (sa.hasNextPage && !sa.isFetchingNextPage && sa.getNextPageDefined) = true := h
    simp only [Bool.and_eq_true, Bool.not_eq_true'] at h'
    exact ⟨h'.1.1, h'.1.2⟩
  · have h' : (ss.nextPageProps.hasNextPage && !ss.nextPageProps.isFetchingNextPage &&
        ss.getNextPageDefined) = true := h
    simp only [Bool.and_eq_true, Bool.not_eq_true'] at h'
    exact ⟨h'.1.1, h'.1.2⟩

/-- Witness for C2 at concrete states where loadMoreRows does invoke the
trigger. -/
theorem c2_load_more_guard_witness :
    sampleCommitState.hasNextPage = true ∧ sampleCommitState.isFetchingNextPage = false :=
  (c2_load_more_guard (fun _ => "") sampleCommitState sampleAppState sampleSnapshotState).1 rfl

/-- C8: the application list view hands vulnerability enrichment the
filtered collection exactly when the URL name parameter is non-empty and
the full sorted collection otherwise, whereas the commit tab keys the
same choice off whether any client-side filter is active. -/
theorem c8_enrichment_source_choice (fromCode : Option Int → String)
    (sa : AppViewState) (sc : CommitTabState) :
    (pipelineRunsListView fromCode sa).enrichmentInput =
      (if sa.query.nameParam ≠ "" then (pipelineRunsListView fromCode sa).filteredData
       else (pipelineRunsListView fromCode sa).sorted) ∧
    (commitsPipelineRunTab fromCode sc).enrichmentInput =
      (if (commitsPipelineRunTab fromCode sc).isFiltered
       then (commitsPipelineRunTab fromCode sc).filteredData
       else sc.pipelineRuns.getD []) :=
  ⟨rfl, rfl⟩

/-- C10: the snapshot list hands vulnerability enrichment the filtered
collection when any generic filter is active and the raw input
collection (not the customFilter-reduced one) otherwise; the filtered
collection itself is drawn from the customFilter-reduced base, which is
in turn drawn from the raw input. -/
theorem c10_snapshot_enrichment_source (ss : SnapshotState) :
    (snapshotPipelineRunsList ss).enrichmentInput =
      (if (snapshotPipelineRunsList ss).isFiltered
       then (snapshotPipelineRunsList ss).filteredData
       else ss.snapshotPipelineRuns) ∧
    (snapshotPipelineRunsList ss).filteredData.Sublist (snapshotPipelineRunsList ss).baseData ∧
    (snapshotPipelineRunsList ss).baseData.Sublist ss.snapshotPipelineRuns := by
  refine ⟨rfl, List.filter_sublist _, ?_⟩
  show (match ss.customFilter with
    | some f => ss.snapshotPipelineRuns.filter f
    | none => ss.snapshotPipelineRuns).Sublist ss.snapshotPipelineRuns
  cases ss.customFilter with
  | some f => exact List.filter_sublist _
  | none => exact List.Sublist.refl _

theorem string_length_pos_of_ne_empty {s : String} (h : s ≠ "") : 0 < s.length := by
  cases s with
  | mk data =>
    cases data with
    | nil => exact absurd rfl h
    | cons c cs => simp [String.length]

/-- When no configured parameter holds a non-empty value, the generic
filter system passes every record through unchanged. -/
theorem useFilteredData_eq_of_not_filtered (input : List PLR) (q : FilterQueryState)
    (h : (useFilteredData input q).isFiltered = false) :
    (useFilteredData input q).filteredData = input := by
  have h' : ((q.nameParam = "" ∧ q.commitParam = "") ∧ q.statusParam = []) ∧
      q.typeParam = [] := by
    simpa [useFilteredData, not_or] using h
  obtain ⟨⟨⟨h1, h2⟩, h3⟩, h4⟩ := h'
  show List.filter _ input = input
  rw [List.filter_eq_self]
  intro p _
  have hs : searchMatches q p = true := by
    unfold searchMatches
    rw [if_pos ⟨h1, h2⟩]
  have hst : statusFilterFn p q.statusParam = true := by
    simp [statusFilterFn, h3]
  have ht : typeFilterFn p q.typeParam = true := by
    simp [typeFilterFn, h4]
  simp [hs, hst, ht]

/-- C4: whenever a fetch error is present in the commit tab or the
application list view, the error state carries the fixed title and a
body equal to the mapped message when non-empty and to the fallback
string when the mapped message is empty. -/
theorem c4_error_state_title_and_body (fromCode : Option Int → String)
    (sc : CommitTabState) (sa : AppViewState) (ec ea : ErrorValue)
    (hc : sc.error = some ec) (ha : sa.error = some ea) :
    ((fromCode ec.code ≠ "" →
        (commitsPipelineRunTab fromCode sc).outcome =
          ViewOutcome.errorState "Unable to load pipeline runs" (fromCode ec.code)) ∧
      (fromCode ec.code = "" →
        (commitsPipelineRunTab fromCode sc).outcome =
          ViewOutcome.errorState "Unable to load pipeline runs" "Something went wrong")) ∧
    ((fromCode ea.code ≠ "" →
        (pipelineRunsListView fromCode sa).outcome =
          ViewOutcome.errorState "Unable to load pipeline runs" (fromCode ea.code)) ∧
      (fromCode ea.code = "" →
        (pipelineRunsListView fromCode sa).outcome =
          ViewOutcome.errorState "Unable to load pipeline runs" "Something went wrong")) := by
  constructor
  · constructor
    · intro hne
      have hlen : 0 < (fromCode ec.code).length := string_length_pos_of_ne_empty hne
      simp [commitsPipelineRunTab, hc, mapperCodeArg, hlen]
    · intro heq
      simp [commitsPipelineRunTab, hc, mapperCodeArg, heq]
  · constructor
    · intro hne
      have hlen : 0 < (fromCode ea.code).length := string_length_pos_of_ne_empty hne
      simp [pipelineRunsListView, ha, mapperCodeArg, hlen]
    · intro heq
      simp [pipelineRunsListView, ha, mapperCodeArg, heq]

/-- Witness for C4 at a concrete error whose mapped message is empty:
the rendered body is the fallback string. -/
theorem c4_error_state_title_and_body_witness :
    (commitsPipelineRunTab (fun _ => "")
        ⟨some [samplePLR], true, some ⟨some 500⟩, true, false, true, emptyQuery⟩).outcome =
      ViewOutcome.errorState "Unable to load pipeline runs" "Something went wrong" :=
  ((c4_error_state_title_and_body (fun _ => "")
      ⟨some [samplePLR], true, some ⟨some 500⟩, true, false, true, emptyQuery⟩
      ⟨some [samplePLR], true, some ⟨some 500⟩, true, false, true, none, emptyQuery⟩
      ⟨some 500⟩ ⟨some 500⟩ rfl rfl).1).2 rfl

/-- C5: evaluation of the views at an error value that carries no
numeric code.  The HTTP error mapper receives the undefined code of the
error itself (none), not the 404 default the claim and the spec
describe: the 404 branch of the call-site ternary is guarded by the
same error-truthiness test that already holds inside the error branch,
so it can never be taken. -/
theorem c5_mapper_code_not_defaulted :
    (commitsPipelineRunTab (fun _ => "m")
        ⟨some [samplePLR], true, some ⟨none⟩, true, false, true, emptyQuery⟩).mapperInput =
      some none ∧
    (commitsPipelineRunTab (fun _ => "m")
        ⟨some [samplePLR], true, some ⟨none⟩, true, false, true, emptyQuery⟩).mapperInput ≠
      some (some 404) ∧
    (pipelineRunsListView (fun _ => "m")
        ⟨some [samplePLR], true, some ⟨none⟩, true, false, true, none, emptyQuery⟩).mapperInput =
      some none ∧
    (pipelineRunsListView (fun _ => "m")
        ⟨some [samplePLR], true, some ⟨none⟩, true, false, true, none, emptyQuery⟩).mapperInput ≠
      some (some 404) := by
  refine ⟨rfl, ?_, rfl, ?_⟩ <;> simp [commitsPipelineRunTab, pipelineRunsListView, mapperCodeArg]

/-- Counterexample for C3 as stated: in the snapshot list a nonempty
total collection whose records are all excluded by the caller-supplied
customFilter, with no generic filter active, renders the no-pipeline-runs
empty state inside the table, not the filtered-empty state. -/
theorem c3_counterexample_custom_filter :
    (⟨[samplePLR], true, true, ⟨false, false⟩, some (fun _ => false), emptyQuery⟩ :
        SnapshotState).snapshotPipelineRuns ≠ [] ∧
    (snapshotPipelineRunsList
        ⟨[samplePLR], true, true, ⟨false, false⟩, some (fun _ => false), emptyQuery⟩).filteredData =
      [] ∧
    (snapshotPipelineRunsList
        ⟨[samplePLR], true, true, ⟨false, false⟩, some (fun _ => false), emptyQuery⟩).outcome =
      ViewOutcome.tableView (TableBody.emptyState EmptyStateKind.noPipelineRuns) ∧
    (snapshotPipelineRunsList
        ⟨[samplePLR], true, true, ⟨false, false⟩, some (fun _ => false), emptyQuery⟩).outcome ≠
      ViewOutcome.tableView (TableBody.emptyState EmptyStateKind.filteredEmpty) := by
  refine ⟨by simp, by decide, by decide, by decide⟩

/-- C3 (amended): with the fetch loaded and no error, a totally empty
collection renders the no-pipeline-runs empty state in every view,
regardless of active filters; and whenever the collection reaching the
generic filter system (after any caller-supplied customFilter) is
nonempty but the filtered result is empty, the filtered-empty state
renders.  When the customFilter alone empties a nonempty collection with
no generic filter active, the no-pipeline-runs state renders instead
(see the counterexample). -/
theorem c3_empty_state_selection (fromCode : Option Int → String)
    (sc : CommitTabState) (sa : AppViewState) (ss : SnapshotState) :
    (sc.error = none → sc.loaded = true → sc.pipelineRuns.getD [] = [] →
      (commitsPipelineRunTab fromCode sc).outcome =
        ViewOutcome.emptyState EmptyStateKind.noPipelineRuns) ∧
    (sc.error = none → sc.loaded = true → sc.pipelineRuns.getD [] ≠ [] →
      (commitsPipelineRunTab fromCode sc).filteredData = [] →
      (commitsPipelineRunTab fromCode sc).outcome =
        ViewOutcome.tableView (TableBody.emptyState EmptyStateKind.filteredEmpty)) ∧
    (sa.error = none → sa.loaded = true → (pipelineRunsListView fromCode sa).sorted = [] →
      (pipelineRunsListView fromCode sa).outcome =
        ViewOutcome.tableView (TableBody.emptyState EmptyStateKind.noPipelineRuns)) ∧
    (sa.error = none → sa.loaded = true → (pipelineRunsListView fromCode sa).baseData ≠ [] →
      (pipelineRunsListView fromCode sa).filteredData = [] →
      (pipelineRunsListView fromCode sa).outcome =
        ViewOutcome.tableView (TableBody.emptyState EmptyStateKind.filteredEmpty)) ∧
    (ss.loaded = true → ss.snapshotPipelineRuns = [] →
      (snapshotPipelineRunsList ss).outcome =
        ViewOutcome.emptyState EmptyStateKind.noPipelineRuns) ∧
    (ss.loaded = true → (snapshotPipelineRunsList ss).baseData ≠ [] →
      (snapshotPipelineRunsList ss).filteredData = [] →
      (snapshotPipelineRunsList ss).outcome =
        ViewOutcome.tableView (TableBody.emptyState EmptyStateKind.filteredEmpty)) := by
  refine ⟨?_, ?_, ?_, ?_, ?_, ?_⟩
  · intro herr hl hempty
    simp [commitsPipelineRunTab, herr, hl, hempty]
  · intro herr hl hne hfe
    have hfe' : (useFilteredData (sc.pipelineRuns.getD []) sc.query).filteredData = [] := hfe
    have hisf : (useFilteredData (sc.pipelineRuns.getD []) sc.query).isFiltered = true := by
      by_contra hbad
      have hbad' : (useFilteredData (sc.pipelineRuns.getD []) sc.query).isFiltered = false :=
        Bool.eq_false_iff.mpr hbad
      have := useFilteredData_eq_of_not_filtered _ _ hbad'
      rw [hfe'] at this
      exact hne this.symm
    simp [commitsPipelineRunTab, herr, hl, hne, hisf, hfe', tableBody,
      List.isEmpty_iff]
  · intro herr hl hsorted
    have hsorted' : sortedPipelineRuns sa.pipelineRuns = [] := hsorted
    cases hcf : sa.customFilter with
    | none => simp [pipelineRunsListView, herr, hl, hsorted', hcf, tableBody, useFilteredData]
    | some f => simp [pipelineRunsListView, herr, hl, hsorted', hcf, tableBody, useFilteredData]
  · intro herr hl hne hfe
    have hne' : (match sa.customFilter with
        | some f => (sortedPipelineRuns sa.pipelineRuns).filter f
        | none => sortedPipelineRuns sa.pipelineRuns) ≠ [] := hne
    have hfe' : (useFilteredData (match sa.customFilter with
        | some f => (sortedPipelineRuns sa.pipelineRuns).filter f
        | none => sortedPipelineRuns sa.pipelineRuns) sa.query).filteredData = [] := hfe
    have hisf : (useFilteredData (match sa.customFilter with
        | some f => (sortedPipelineRuns sa.pipelineRuns).filter f
        | none => sortedPipelineRuns sa.pipelineRuns) sa.query).isFiltered = true := by
      by_contra hbad
      have hbad' := Bool.eq_false_iff.mpr hbad
      have := useFilteredData_eq_of_not_filtered _ _ hbad'
      rw [hfe'] at this
      exact hne' this.symm
    have hsne : sortedPipelineRuns sa.pipelineRuns ≠ [] := by
      intro hcontra
      apply hne'
      rw [hcontra]
      cases sa.customFilter <;> simp
    simp [pipelineRunsListView, herr, hl, hisf, hfe', tableBody, List.isEmpty_iff, hsne]
  · intro hl hempty
    simp [snapshotPipelineRunsList, hl, hempty]
  · intro hl hne hfe
    have hne' : (match ss.customFilter with
        | some f => ss.snapshotPipelineRuns.filter f
        | none => ss.snapshotPipelineRuns) ≠ [] := hne
    have hfe' : (useFilteredData (match ss.customFilter with
        | some f => ss.snapshotPipelineRuns.filter f
        | none => ss.snapshotPipelineRuns) ss.query).filteredData = [] := hfe
    have hisf : (useFilteredData (match ss.customFilter with
        | some f => ss.snapshotPipelineRuns.filter f
        | none => ss.snapshotPipelineRuns) ss.query).isFiltered = true := by
      by_contra hbad
      have hbad' := Bool.eq_false_iff.mpr hbad
      have := useFilteredData_eq_of_not_filtered _ _ hbad'
      rw [hfe'] at this
      exact hne' this.symm
    have hrawne : ss.snapshotPipelineRuns ≠ [] := by
      intro hcontra
      apply hne'
      rw [hcontra]
      cases ss.customFilter <;> simp
    simp [snapshotPipelineRunsList, hl, hisf, hfe', tableBody, List.isEmpty_iff, hrawne]

/-- Witness for the amended C3: a loaded snapshot list with one record
and an active status filter matching nothing renders the filtered-empty
state, and a loaded commit tab with zero fetched records renders the
no-pipeline-runs empty state. -/
theorem c3_empty_state_selection_witness :
    (snapshotPipelineRunsList
        ⟨[samplePLR], true, true, ⟨false, false⟩, none,
          ⟨"", "", SearchAttr.name, ["Failed"], []⟩⟩).outcome =
      ViewOutcome.tableView (TableBody.emptyState EmptyStateKind.filteredEmpty) ∧
    (commitsPipelineRunTab (fun _ => "") ⟨some [], true, none, true, false, true,
        emptyQuery⟩).outcome =
      ViewOutcome.emptyState EmptyStateKind.noPipelineRuns :=
  ⟨(c3_empty_state_selection (fun _ => "")
        ⟨some [], true, none, true, false, true, emptyQuery⟩
        sampleAppState
        ⟨[samplePLR], true, true, ⟨false, false⟩, none,
          ⟨"", "", SearchAttr.name, ["Failed"], []⟩⟩).2.2.2.2.2
      rfl (by decide) (by decide),
    (c3_empty_state_selection (fun _ => "")
        ⟨some [], true, none, true, false, true, emptyQuery⟩
        sampleAppState
        ⟨[samplePLR], true, true, ⟨false, false⟩, none,
          ⟨"", "", SearchAttr.name, ["Failed"], []⟩⟩).1
      rfl rfl rfl⟩

theorem bumpCount_lookup_self (m : List (String × Nat)) (k : String) :
    lookupCount (bumpCount m k) k = lookupCount m k + 1 := by
  induction m with
  | nil => simp [bumpCount, lookupCount]
  | cons e rest ih =>
    obtain ⟨k', c⟩ := e
    by_cases h : k' = k
    · simp [bumpCount, lookupCount, h]
    · simp [bumpCount, lookupCount, h, ih]

theorem bumpCount_lookup_ne (m : List (String × Nat)) {v k : String} (h : v ≠ k) :
    lookupCount (bumpCount m k) v = lookupCount m v := by
  have hkv : ¬ (k = v) := fun he => h he.symm
  induction m with
  | nil =>
    simp only [bumpCount]
    simp [lookupCount, hkv]
  | cons e rest ih =>
    obtain ⟨k', c⟩ := e
    by_cases hk : k' = k
    · subst hk
      simp only [bumpCount, if_pos rfl]
      simp [lookupCount, hkv]
    · simp only [bumpCount, if_neg hk]
      by_cases hv : k' = v
      · simp [lookupCount, hv]
      · simp [lookupCount, hv, ih]

theorem bumpCount_mem_keys (m : List (String × Nat)) (v k : String) :
    v ∈ (bumpCount m k).map Prod.fst ↔ v ∈ m.map Prod.fst ∨ v = k := by
  induction m with
  | nil => simp [bumpCount]
  | cons e rest ih =>
    obtain ⟨k', c⟩ := e
    by_cases h : k' = k
    · subst h
      simp only [bumpCount, if_pos rfl]
      constructor
      · intro hv
        rcases List.mem_cons.mp hv with hv | hv
        · exact Or.inl (List.mem_cons.mpr (Or.inl hv))
        · exact Or.inl (List.mem_cons.mpr (Or.inr hv))
      · intro hv
        rcases hv with hv | hv
        · exact hv
        · exact List.mem_cons.mpr (Or.inl hv)
    · simp only [bumpCount, if_neg h, List.map_cons, List.mem_cons, ih]
      tauto

theorem bumpCount_keys_of_mem (m : List (String × Nat)) {k : String}
    (h : k ∈ m.map Prod.fst) : (bumpCount m k).map Prod.fst = m.map Prod.fst := by
  induction m with
  | nil => simp at h
  | cons e rest ih =>
    obtain ⟨k', c⟩ := e
    by_cases hk : k' = k
    · simp [bumpCount, hk]
    · have hmem : k ∈ rest.map Prod.fst := by
        rcases List.mem_cons.mp h with hh | hh
        · exact absurd hh.symm hk
        · exact hh
      simp [bumpCount, hk, ih hmem]

theorem bumpCount_keys_of_not_mem (m : List (String × Nat)) {k : String}
    (h : k ∉ m.map Prod.fst) :
    (bumpCount m k).map Prod.fst = m.map Prod.fst ++ [k] := by
  induction m with
  | nil => simp [bumpCount]
  | cons e rest ih =>
    obtain ⟨k', c⟩ := e
    have hk : k' ≠ k := by
      intro he
      exact h (List.mem_cons.mpr (Or.inl he.symm))
    have hrest : k ∉ rest.map Prod.fst := fun hm => h (List.mem_cons.mpr (Or.inr hm))
    simp [bumpCount, hk, ih hrest]

theorem bumpCount_nodup_keys (m : List (String × Nat)) (k : String)
    (h : (m.map Prod.fst).Nodup) : ((bumpCount m k).map Prod.fst).Nodup := by
  by_cases hm : k ∈ m.map Prod.fst
  · rw [bumpCount_keys_of_mem m hm]
    exact h
  · rw [bumpCount_keys_of_not_mem m hm]
    rw [List.nodup_append]
    exact ⟨h, List.nodup_singleton k, by simpa using hm⟩

theorem typeCountMap_aux_lookup (l : List PLR) :
    ∀ (m : List (String × Nat)) (v : String), v ≠ "" →
      lookupCount (l.foldl typeCountStep m) v = lookupCount m v + typeLabelCount l v := by
  induction l with
  | nil =>
    intro m v _
    simp [typeLabelCount]
  | cons p l ih =>
    intro m v hv
    rw [List.foldl_cons, ih (typeCountStep m p) v hv]
    cases hp : p.typeLabel with
    | none =>
      have hc : typeLabelCount (p :: l) v = typeLabelCount l v := by
        simp [typeLabelCount, List.filter_cons, hp]
      rw [hc]
      simp [typeCountStep, hp]
    | some t =>
      by_cases ht : t = ""
      · have hv0 : ¬ ("" = v) := fun he => hv he.symm
        have hc : typeLabelCount (p :: l) v = typeLabelCount l v := by
          simp [typeLabelCount, List.filter_cons, hp, ht, hv0]
        rw [hc]
        simp [typeCountStep, hp, ht]
      · by_cases htv : t = v
        · subst htv
          have hc : typeLabelCount (p :: l) t = typeLabelCount l t + 1 := by
            simp [typeLabelCount, List.filter_cons, hp]
          rw [hc]
          simp only [typeCountStep, hp, if_neg ht]
          rw [bumpCount_lookup_self]
          omega
        · have hvt : v ≠ t := fun he => htv he.symm
          have hc : typeLabelCount (p :: l) v = typeLabelCount l v := by
            simp [typeLabelCount, List.filter_cons, hp, htv]
          rw [hc]
          simp only [typeCountStep, hp, if_neg ht]
          rw [bumpCount_lookup_ne m hvt]

theorem typeCountMap_aux_mem (l : List PLR) :
    ∀ (m : List (String × Nat)) (v : String),
      (v ∈ (l.foldl typeCountStep m).map Prod.fst ↔
        v ∈ m.map Prod.fst ∨ (v ≠ "" ∧ ∃ p ∈ l, p.typeLabel = some v)) := by
  induction l with
  | nil =>
    intro m v
    simp
  | cons p l ih =>
    intro m v
    rw [List.foldl_cons, ih (typeCountStep m p) v]
    cases hp : p.typeLabel with
    | none =>
      simp only [typeCountStep, hp]
      constructor
      · rintro (hm | ⟨hne, q, hq, hl⟩)
        · exact Or.inl hm
        · exact Or.inr ⟨hne, q, List.mem_cons.mpr (Or.inr hq), hl⟩
      · rintro (hm | ⟨hne, q, hq, hl⟩)
        · exact Or.inl hm
        · rcases List.mem_cons.mp hq with rfl | hq'
          · rw [hp] at hl
            exact absurd hl (by simp)
          · exact Or.inr ⟨hne, q, hq', hl⟩
    | some t =>
      by_cases ht : t = ""
      · subst ht
        simp only [typeCountStep, hp, if_pos rfl]
        constructor
        · rintro (hm | ⟨hne, q, hq, hl⟩)
          · exact Or.inl hm
          · exact Or.inr ⟨hne, q, List.mem_cons.mpr (Or.inr hq), hl⟩
        · rintro (hm | ⟨hne, q, hq, hl⟩)
          · exact Or.inl hm
          · rcases List.mem_cons.mp hq with rfl | hq'
            · rw [hp] at hl
              have : v = "" := by injection hl.symm
              exact absurd this hne
            · exact Or.inr ⟨hne, q, hq', hl⟩
      · simp only [typeCountStep, hp, if_neg ht]
        rw [bumpCount_mem_keys]
        constructor
        · rintro ((hm | rfl) | ⟨hne, q, hq, hl⟩)
          · exact Or.inl hm
          · exact Or.inr ⟨ht, p, List.mem_cons.mpr (Or.inl rfl), hp⟩
          · exact Or.inr ⟨hne, q, List.mem_cons.mpr (Or.inr hq), hl⟩
        · rintro (hm | ⟨hne, q, hq, hl⟩)
          · exact Or.inl (Or.inl hm)
          · rcases List.mem_cons.mp hq with rfl | hq'
            · rw [hp] at hl
              have : t = v := by injection hl
              exact Or.inl (Or.inr this.symm)
            · exact Or.inr ⟨hne, q, hq', hl⟩

theorem typeCountMap_aux_nodup (l : List PLR) :
    ∀ (m : List (String × Nat)), (m.map Prod.fst).Nodup →
      ((l.foldl typeCountStep m).map Prod.fst).Nodup := by
  induction l with
  | nil =>
    intro m hm
    simpa using hm
  | cons p l ih =>
    intro m hm
    rw [List.foldl_cons]
    apply ih
    cases hp : p.typeLabel with
    | none => simpa [typeCountStep, hp] using hm
    | some t =>
      by_cases ht : t = ""
      · simpa [typeCountStep, hp, ht] using hm
      · simp only [typeCountStep, hp, if_neg ht]
        exact bumpCount_nodup_keys m t hm

theorem lookupCount_of_mem_nodup :
    ∀ (m : List (String × Nat)) (v : String) (c : Nat),
      (m.map Prod.fst).Nodup → (v, c) ∈ m → lookupCount m v = c := by
  intro m
  induction m with
  | nil =>
    intro v c _ hmem
    simp at hmem
  | cons e rest ih =>
    intro v c hnd hmem
    obtain ⟨k', c'⟩ := e
    rcases List.mem_cons.mp hmem with he | hmem'
    · have hk : k' = v := (Prod.mk.injEq _ _ _ _).mp he.symm |>.1
      have hc : c' = c := (Prod.mk.injEq _ _ _ _).mp he.symm |>.2
      simp [lookupCount, hk, hc]
    · have hne : k' ≠ v := by
        intro he
        subst he
        have : k' ∈ rest.map Prod.fst :=
          List.mem_map.mpr ⟨(k', c), hmem', rfl⟩
        exact (List.nodup_cons.mp (by simpa using hnd)).1 this
      have hnd' : (rest.map Prod.fst).Nodup := (List.nodup_cons.mp (by simpa using hnd)).2
      simp [lookupCount, hne, ih v c hnd' hmem']

theorem typeGetOptions_values (data : List PLR) :
    (typeGetOptions data).map FilterOption.value = (typeCountMap data).map Prod.fst := by
  simp [typeGetOptions, List.map_map, Function.comp]

/-- C6: for every dataset, the type facet getOptions returns exactly one
option per distinct non-empty pipeline-type label value present (no
duplicate values; a value appears iff some record carries it and it is
non-empty), each option counting exactly the records carrying that
value; records whose label is absent or empty contribute no option, and
the snapshot variant differs only in its display labels. -/
theorem c6_type_facet_option_counts (data : List PLR) :
    ((typeGetOptions data).map FilterOption.value).Nodup ∧
    (∀ v : String,
      v ∈ (typeGetOptions data).map FilterOption.value ↔
        v ≠ "" ∧ ∃ p ∈ data, p.typeLabel = some v) ∧
    (∀ o ∈ typeGetOptions data, o.count = typeLabelCount data o.value) ∧
    (snapshotTypeGetOptions data).map (fun o => (o.value, o.count)) =
      (typeGetOptions data).map (fun o => (o.value, o.count)) := by
  have hnodup : ((typeCountMap data).map Prod.fst).Nodup :=
    typeCountMap_aux_nodup data [] (by simp)
  have hmem : ∀ v : String,
      v ∈ (typeCountMap data).map Prod.fst ↔
        v ≠ "" ∧ ∃ p ∈ data, p.typeLabel = some v := by
    intro v
    have := typeCountMap_aux_mem data [] v
    simpa [typeCountMap] using this
  refine ⟨?_, ?_, ?_, ?_⟩
  · rw [typeGetOptions_values]
    exact hnodup
  · intro v
    rw [typeGetOptions_values]
    exact hmem v
  · intro o ho
    obtain ⟨e, he, heo⟩ := List.mem_map.mp ho
    have hval : o.value = e.1 := by rw [← heo]
    have hcnt : o.count = e.2 := by rw [← heo]
    have hkey : e.1 ∈ (typeCountMap data).map Prod.fst :=
      List.mem_map.mpr ⟨e, he, rfl⟩
    have hne : e.1 ≠ "" := ((hmem e.1).mp hkey).1
    have hlook : lookupCount (typeCountMap data) e.1 = e.2 :=
      lookupCount_of_mem_nodup (typeCountMap data) e.1 e.2 hnodup (by simpa using he)
    have hcount : lookupCount (typeCountMap data) e.1 = typeLabelCount data e.1 := by
      have := typeCountMap_aux_lookup data [] e.1 hne
      simpa [typeCountMap, lookupCount] using this
    rw [hval, hcnt, ← hlook, hcount]
  · simp [typeGetOptions, snapshotTypeGetOptions, List.map_map, Function.comp]

/-- Witness for C6 at the dataset of the spec example: three records
with type labels build, build, test produce the options build (count 2)
and test (count 1). -/
theorem c6_type_facet_option_counts_witness :
    ("build" ∈ (typeGetOptions
        [⟨"a", "", some "build", none, "s"⟩, ⟨"b", "", some "build", none, "s"⟩,
          ⟨"c", "", some "test", none, "s"⟩]).map FilterOption.value) ∧
    (⟨"build", "Build", 2⟩ : FilterOption).count =
      typeLabelCount
        [⟨"a", "", some "build", none, "s"⟩, ⟨"b", "", some "build", none, "s"⟩,
          ⟨"c", "", some "test", none, "s"⟩] "build" :=
  ⟨(c6_type_facet_option_counts
      [⟨"a", "", some "build", none, "s"⟩, ⟨"b", "", some "build", none, "s"⟩,
        ⟨"c", "", some "test", none, "s"⟩]).2.1 "build"
      |>.mpr ⟨by decide, ⟨"a", "", some "build", none, "s"⟩, by decide, rfl⟩,
    (c6_type_facet_option_counts
      [⟨"a", "", some "build", none, "s"⟩, ⟨"b", "", some "build", none, "s"⟩,
        ⟨"c", "", some "test", none, "s"⟩]).2.2.1 ⟨"build", "Build", 2⟩ (by decide)⟩

theorem perm_jsSortInsert {α : Type} (le : α → α → Bool) (x : α) :
    ∀ l : List α, (jsSortInsert le x l).Perm (x :: l) := by
  intro l
  induction l with
  | nil => simp [jsSortInsert]
  | cons y ys ih =>
    by_cases h : le x y
    · simp [jsSortInsert, h]
    · simp only [jsSortInsert, if_neg h]
      exact (ih.cons y).trans (List.Perm.swap x y ys)

theorem perm_jsSortBy {α : Type} (le : α → α → Bool) :
    ∀ l : List α, (jsSortBy le l).Perm l := by
  intro l
  induction l with
  | nil => simp [jsSortBy]
  | cons x xs ih =>
    exact (perm_jsSortInsert le x (jsSortBy le xs)).trans (ih.cons x)

theorem mem_jsSortInsert {α : Type} (le : α → α → Bool) (x b : α) (l : List α) :
    b ∈ jsSortInsert le x l ↔ b = x ∨ b ∈ l := by
  rw [(perm_jsSortInsert le x l).mem_iff]
  simp

theorem pairwise_jsSortInsert {α : Type} (le : α → α → Bool) (x : α) :
    ∀ l : List α,
      l.Pairwise (fun a b => le a b = true) →
      (∀ y ∈ l, le x y = true ∨ le y x = true) →
      (∀ z ∈ l, ∀ w ∈ l, le x z = true → le z w = true → le x w = true) →
      (jsSortInsert le x l).Pairwise (fun a b => le a b = true) := by
  intro l
  induction l with
  | nil =>
    intro _ _ _
    simp [jsSortInsert]
  | cons y ys ih =>
    intro hl htot htrans
    obtain ⟨hy, hys⟩ := List.pairwise_cons.mp hl
    by_cases h : le x y
    · simp only [jsSortInsert, if_pos h]
      refine List.pairwise_cons.mpr ⟨?_, hl⟩
      intro b hb
      rcases List.mem_cons.mp hb with rfl | hb'
      · exact h
      · exact htrans y (List.mem_cons.mpr (Or.inl rfl)) b (List.mem_cons.mpr (Or.inr hb'))
          h (hy b hb')
    · simp only [jsSortInsert, if_neg h]
      refine List.pairwise_cons.mpr ⟨?_, ?_⟩
      · intro b hb
        rcases (mem_jsSortInsert le x b ys).mp hb with rfl | hb'
        · rcases htot y (List.mem_cons.mpr (Or.inl rfl)) with hxy | hyx
          · exact absurd hxy h
          · exact hyx
        · exact hy b hb'
      · exact ih hys
          (fun z hz => htot z (List.mem_cons.mpr (Or.inr hz)))
          (fun z hz w hw => htrans z (List.mem_cons.mpr (Or.inr hz))
            w (List.mem_cons.mpr (Or.inr hw)))

theorem pairwise_jsSortBy {α : Type} (le : α → α → Bool) :
    ∀ l : List α,
      (∀ a ∈ l, ∀ b ∈ l, le a b = true ∨ le b a = true) →
      (∀ a ∈ l, ∀ b ∈ l, ∀ c ∈ l, le a b = true → le b c = true → le a c = true) →
      (jsSortBy le l).Pairwise (fun a b => le a b = true) := by
  intro l
  induction l with
  | nil =>
    intro _ _
    simp [jsSortBy]
  | cons x xs ih =>
    intro htot htrans
    have hmemx : x ∈ x :: xs := List.mem_cons.mpr (Or.inl rfl)
    have hsub : ∀ b ∈ jsSortBy le xs, b ∈ xs :=
      fun b hb => (perm_jsSortBy le xs).mem_iff.mp hb
    refine pairwise_jsSortInsert le x (jsSortBy le xs) ?_ ?_ ?_
    · exact ih
        (fun a ha b hb => htot a (List.mem_cons.mpr (Or.inr ha)) b (List.mem_cons.mpr (Or.inr hb)))
        (fun a ha b hb c hc => htrans a (List.mem_cons.mpr (Or.inr ha))
          b (List.mem_cons.mpr (Or.inr hb)) c (List.mem_cons.mpr (Or.inr hc)))
    · intro y hy
      exact htot x hmemx y (List.mem_cons.mpr (Or.inr (hsub y hy)))
    · intro z hz w hw
      exact htrans x hmemx z (List.mem_cons.mpr (Or.inr (hsub z hz)))
        w (List.mem_cons.mpr (Or.inr (hsub w hw)))

theorem plrSortLe_of_some {a b : PLR} {sa sb : String}
    (ha : a.startTime = some sa) (hb : b.startTime = some sb) :
    plrSortLe a b = true ↔ sb ≤ sa := by
  unfold plrSortLe jsComparator
  rw [hb, ha]
  simp only [startTimeToStr, Option.getD_some, decide_eq_true_eq]
  unfold jsLocaleCompare
  rcases lt_trichotomy sb sa with hlt | heq | hgt
  · rw [if_pos hlt]
    simp [le_of_lt hlt]
  · subst heq
    rw [if_neg (lt_irrefl sb), if_neg (lt_irrefl sb)]
    simp
  · rw [if_neg (not_lt_of_lt hgt), if_pos hgt]
    constructor
    · intro hcontra
      exact absurd hcontra (by norm_num)
    · intro hle
      exact absurd hle (not_le_of_lt hgt)

/-- C7: for every fetched collection all of whose records carry a
status.startTime string, the pre-filter output of the application list
view is a permutation of the collection sorted by status.startTime in
descending lexical string order. -/
theorem c7_sorted_descending (runs : List PLR)
    (h : ∀ r ∈ runs, r.startTime.isSome = true) :
    (sortedPipelineRuns (some runs)).Perm runs ∧
    (sortedPipelineRuns (some runs)).Pairwise
      (fun a b => b.startTime.getD "" ≤ a.startTime.getD "") := by
  have hsome : ∀ r ∈ runs, ∃ s, r.startTime = some s := by
    intro r hr
    exact Option.isSome_iff_exists.mp (h r hr)
  have hperm : (jsSortBy plrSortLe runs).Perm runs := perm_jsSortBy plrSortLe runs
  constructor
  · exact hperm
  · have hpw : (jsSortBy plrSortLe runs).Pairwise (fun a b => plrSortLe a b = true) := by
      apply pairwise_jsSortBy plrSortLe runs
      · intro a ha b hb
        obtain ⟨sa, hsa⟩ := hsome a ha
        obtain ⟨sb, hsb⟩ := hsome b hb
        rcases le_total sb sa with hle | hle
        · exact Or.inl ((plrSortLe_of_some hsa hsb).mpr hle)
        · exact Or.inr ((plrSortLe_of_some hsb hsa).mpr hle)
      · intro a ha b hb c hc hab hbc
        obtain ⟨sa, hsa⟩ := hsome a ha
        obtain ⟨sb, hsb⟩ := hsome b hb
        obtain ⟨sc, hsc⟩ := hsome c hc
        have h1 : sb ≤ sa := (plrSortLe_of_some hsa hsb).mp hab
        have h2 : sc ≤ sb := (plrSortLe_of_some hsb hsc).mp hbc
        exact (plrSortLe_of_some hsa hsc).mpr (le_trans h2 h1)
    refine List.Pairwise.imp_of_mem ?_ hpw
    intro a b ha hb hab
    have ha' : a ∈ runs := hperm.mem_iff.mp ha
    have hb' : b ∈ runs := hperm.mem_iff.mp hb
    obtain ⟨sa, hsa⟩ := hsome a ha'
    obtain ⟨sb, hsb⟩ := hsome b hb'
    rw [hsa, hsb]
    simp only [Option.getD_some]
    exact (plrSortLe_of_some hsa hsb).mp hab

/-- Witness for C7 at the spec example: timestamps for January, March
and February sort to March, February, January. -/
theorem c7_sorted_descending_witness :
    (sortedPipelineRuns (some
        [⟨"jan", "", none, some "2024-01-01T00:00:00Z", "s"⟩,
          ⟨"mar", "", none, some "2024-03-01T00:00:00Z", "s"⟩,
          ⟨"feb", "", none, some "2024-02-01T00:00:00Z", "s"⟩])).Perm
      [⟨"jan", "", none, some "2024-01-01T00:00:00Z", "s"⟩,
        ⟨"mar", "", none, some "2024-03-01T00:00:00Z", "s"⟩,
        ⟨"feb", "", none, some "2024-02-01T00:00:00Z", "s"⟩] ∧
    (sortedPipelineRuns (some
        [⟨"jan", "", none, some "2024-01-01T00:00:00Z", "s"⟩,
          ⟨"mar", "", none, some "2024-03-01T00:00:00Z", "s"⟩,
          ⟨"feb", "", none, some "2024-02-01T00:00:00Z", "s"⟩])).Pairwise
      (fun a b => b.startTime.getD "" ≤ a.startTime.getD "") :=
  c7_sorted_descending
    [⟨"jan", "", none, some "2024-01-01T00:00:00Z", "s"⟩,
      ⟨"mar", "", none, some "2024-03-01T00:00:00Z", "s"⟩,
      ⟨"feb", "", none, some "2024-02-01T00:00:00Z", "s"⟩]
    (by decide)

/-- C9: the sort comparator of the application list view is
number-valued whenever both compared records carry a
status.startTime string, and evaluates to undefined (none) whenever the
second compared record lacks one, leaving the relative order of such
records unspecified. -/
theorem c9_comparator_undefined_without_start_time (a b : PLR) :
    (b.startTime = none → jsComparator a b = none) ∧
    (∀ sa sb : String, a.startTime = some sa → b.startTime = some sb →
      jsComparator a b = some (jsLocaleCompare sb sa)) := by
  constructor
  · intro hb
    simp [jsComparator, hb]
  · intro sa sb ha hb
    simp [jsComparator, hb, ha, startTimeToStr]

/-- Witness for C9: a concrete pair whose second record lacks
status.startTime yields an undefined comparator value, and a concrete
pair with both start times yields a number. -/
theorem c9_comparator_undefined_witness :
    jsComparator samplePLR ⟨"x", "", none, none, "s"⟩ = none ∧
    jsComparator ⟨"x", "", none, some "2024-01-01T00:00:00Z", "s"⟩ samplePLR =
      some (jsLocaleCompare "2024-01-01T00:00:00Z" "2024-01-01T00:00:00Z") :=
  ⟨(c9_comparator_undefined_without_start_time samplePLR ⟨"x", "", none, none, "s"⟩).1 rfl,
    (c9_comparator_undefined_without_start_time
        ⟨"x", "", none, some "2024-01-01T00:00:00Z", "s"⟩ samplePLR).2
      "2024-01-01T00:00:00Z" "2024-01-01T00:00:00Z" rfl rfl⟩
